import Mathlib

/-!
Verification of the CRM operations-automation core (`src/app/routes.py` and
`src/app/models.py`) against its natural-language specification.

Modelling conventions for the shallow embedding:
* `datetime` values are integers counting minutes (minute granularity is all
  the source logic uses); `date` values are integers counting days.
  `timedelta.days` is Python floor division, embedded as `Int.fdiv` by 1440.
* Python floats (the scoring heuristics use literals such as `0.05`) are
  embedded as exact rationals `ℚ`.
* SQLAlchemy rows become Lean structures carrying the columns the core reads;
  the store becomes an explicit record of lists, and each route handler a
  function from store and request to `Except` of the mutated store.
* Python dicts that rely on insertion order (`defaultdict` in
  `calculate_engineer_load`, `engineer_slots` in `optimise_schedule`) become
  association lists updated in place, appending new keys at the end.
* Python truthiness on optional strings (`or None`, `if data.get("status")`)
  treats `None` and `""` as falsy; `truthyStr` embeds exactly that.
* JSON display formatting (`isoformat()`, `round(x, 2)` in serialised
  payloads) is outside the embedded computation; records keep exact values.
-/

namespace CRM

/-- Python truthiness filter for an optional string: `None` and `""` are
falsy, everything else is kept (`x or None`, `if x:` in the source). -/
def truthyStr : Option String → Option String
  | some s => if s = "" then none else some s
  | none => none

/-- Python's `str.lower()` on the ASCII strings the core compares, written
with a structural `List.map` so that kernel reduction evaluates it on
literals (`String.toLower` itself recurses by well-founded byte positions
and does not reduce). -/
def pyLower (s : String) : String := ⟨s.data.map Char.toLower⟩

/-- `Client` row, restricted to the columns the scoring core reads
(`models.py`, class `Client`; `updated_at` from `TimestampMixin`). -/
structure Client where
  id : Nat
  updated_at : Int
deriving DecidableEq

/-- `Ticket` row (`models.py`, class `Ticket`), columns used by the core. -/
structure Ticket where
  id : Nat
  client_id : Nat
  subject : String
  description : String
  priority : String
  status : String
  assigned_to : String
  due_date : Option Int
deriving DecidableEq

/-- `Task` row (`models.py`, class `Task`), columns used by the core. -/
structure Task where
  status : String
  priority : String
  due_date : Option Int
  assigned_to : Option String
deriving DecidableEq

/-- `Appointment` row (`models.py`, class `Appointment`), columns used by the
core; `client_name` stands for the joined `appointment.client.name`. -/
structure Appointment where
  id : Nat
  client_id : Nat
  client_name : Option String
  start_time : Int
  duration_minutes : Int
  status : String
  assigned_to : Option String
deriving DecidableEq

/-- `SEVERITY_PRIORITY_MAP` (`routes.py` lines 36-43). -/
def SEVERITY_PRIORITY_MAP : List (String × String) :=
  [("disaster", "high"), ("high", "high"), ("average", "normal"),
   ("warning", "normal"), ("information", "low"), ("not_classified", "low")]

/-- The severity escalation policy: lowercase the severity, then
`SEVERITY_PRIORITY_MAP.get(severity, "normal")` (`routes.py` lines 215-216;
spec name `priority_for`). -/
def priority_for (severity : String) : String :=
  (SEVERITY_PRIORITY_MAP.lookup (pyLower severity)).getD "normal"

/-- `calculate_churn_risk` (`routes.py` lines 46-82).  `now` is
`datetime.utcnow()` in minutes, `today` is `datetime.utcnow().date()` in
days; float arithmetic is embedded as exact rationals. -/
def calculate_churn_risk (now today : Int) (client : Client)
    (tickets : List Ticket) (tasks : List Task)
    (appointments : List Appointment) : ℚ × String :=
  let open_tickets := (tickets.filter (fun t => t.status == "open")).length
  let high_priority := (tickets.filter
    (fun t => t.status == "open" && t.priority == "high")).length
  let overdue_tasks := (tasks.filter (fun t =>
    t.status != "completed" &&
      (match t.due_date with
       | some d => decide (d < today)
       | none => false))).length
  let missed_appointments :=
    (appointments.filter (fun a => a.status == "cancelled")).length
  let days_since_touch := (now - client.updated_at).fdiv 1440
  let probability : ℚ :=
    0.05 + min 0.3 ((open_tickets : ℚ) * 0.05)
      + min 0.3 ((high_priority : ℚ) * 0.1)
      + min 0.2 ((overdue_tasks : ℚ) * 0.08)
      + (if missed_appointments ≠ 0 then 0.1 else 0)
      + (if 30 < days_since_touch then 0.05 else 0)
  let probability := min probability 0.95
  let label :=
    if probability ≥ 0.6 then "high"
    else if probability ≥ 0.35 then "medium"
    else "low"
  (probability, label)

/-- One entry of the `calculate_engineer_load` result.  The source serialises
`round(utilisation, 2)` into the JSON payload; the record keeps the exact
value that also feeds the composite score. -/
structure EngineerForecast where
  engineer : String
  open_tasks : Nat
  scheduled_minutes : Int
  utilisation : ℚ
  status : String
deriving DecidableEq

/-- In-place update of the insertion-ordered workload association list:
`workload[e]["open_tasks"] += dt` / `workload[e]["scheduled_minutes"] += dm`,
creating the defaultdict entry at the end when `e` is new. -/
def bumpLoad (e : String) (dt : Nat) (dm : Int) :
    List (String × Nat × Int) → List (String × Nat × Int)
  | [] => [(e, dt, dm)]
  | (k, v) :: rest =>
      if k = e then (k, v.1 + dt, v.2 + dm) :: rest
      else (k, v) :: bumpLoad e dt dm rest

/-- Body of the first `calculate_engineer_load` loop (`routes.py` lines
89-91): `workload[task.assigned_to]["open_tasks"] += 1` for tasks with
`status != "completed"` and a truthy `assigned_to`. -/
def loadTaskStep (w : List (String × Nat × Int)) (t : Task) :
    List (String × Nat × Int) :=
  if t.status ≠ "completed" then
    match truthyStr t.assigned_to with
    | some e => bumpLoad e 1 0 w
    | none => w
  else w

/-- Body of the second `calculate_engineer_load` loop (`routes.py` lines
92-94): `workload[a.assigned_to]["scheduled_minutes"] += a.duration_minutes`
for appointments with `status == "scheduled"` and a truthy `assigned_to`. -/
def loadApptStep (w : List (String × Nat × Int)) (a : Appointment) :
    List (String × Nat × Int) :=
  if a.status = "scheduled" then
    match truthyStr a.assigned_to with
    | some e => bumpLoad e 0 a.duration_minutes w
    | none => w
  else w

/-- `calculate_engineer_load` (`routes.py` lines 85-113): tasks pass first,
appointments second, over an insertion-ordered workload dict. -/
def calculate_engineer_load (tasks : List Task)
    (appointments : List Appointment) : List EngineerForecast :=
  let w := appointments.foldl loadApptStep (tasks.foldl loadTaskStep [])
  w.map (fun kv =>
    let utilisation : ℚ := min 1 ((kv.2.2 : ℚ) / (8 * 60))
    let score : ℚ := min 1 ((kv.2.1 : ℚ) * 0.05 + utilisation)
    let status :=
      if score ≥ 0.8 then "overloaded"
      else if score ≤ 0.35 then "underutilised"
      else "balanced"
    ⟨kv.1, kv.2.1, kv.2.2, utilisation, status⟩)

/-- Errors raised through `abort(...)` / `get_or_404` in the route handlers. -/
inductive ApiError where
  | badRequest (msg : String)
  | notFound (msg : String)
deriving DecidableEq

/-- `MonitoringIncident` row (`models.py`, class `MonitoringIncident`). -/
structure Incident where
  id : Nat
  client_id : Nat
  source : String
  external_id : String
  severity : String
  message : String
  status : String
  occurred_at : Int
  ticket_id : Option Nat
deriving DecidableEq

/-- The entity store the route handlers read and mutate. -/
structure Store where
  clients : List Client
  tickets : List Ticket
  incidents : List Incident
  next_ticket_id : Nat
  next_incident_id : Nat
deriving DecidableEq

/-- Payload of `POST /integrations/zabbix/events` after the required-field
check and `int(data["client_id"])` coercion (`routes.py` lines 204-213).
`event_id` is the result of `str(data["event_id"])`; `occurred_at` is the
parsed `datetime.fromisoformat` value in minutes — the abort on an
unparseable string is outside this embedding (no claim depends on it),
`none` covering an absent or falsy value. -/
structure ZabbixEvent where
  event_id : String
  client_id : Nat
  severity : String
  message : String
  status : Option String
  occurred_at : Option Int
  problem : Option String
  assigned_to : Option String
deriving DecidableEq

/-- Replace the first element satisfying `p` (the row returned by
`.first()`, mutated in place by the ORM). -/
def updateFirst (p : α → Bool) (f : α → α) : List α → List α
  | [] => []
  | x :: xs => if p x then f x :: xs else x :: updateFirst p f xs

/-- The deduplication key predicate: `source="zabbix", external_id=eid`
(`routes.py` lines 218-220). -/
def incidentKey (eid : String) (i : Incident) : Bool :=
  i.source == "zabbix" && i.external_id == eid

/-- `ingest_zabbix_event` (`routes.py` lines 202-266): look up the incident
by `(source, external_id)`; update in place when found (resolving the linked
ticket when the new status is resolved/ok), otherwise create a Ticket via the
escalation policy plus a linked MonitoringIncident.  Returns the store, the
serialised incident, and `created` (HTTP 201 vs 200). -/
def ingest_zabbix_event (now today : Int) (st : Store) (e : ZabbixEvent) :
    Except ApiError (Store × Incident × Bool) :=
  match st.clients.find? (fun c => c.id == e.client_id) with
  | none => .error (.notFound "client")
  | some client =>
    let severity := pyLower e.severity
    let priority := (SEVERITY_PRIORITY_MAP.lookup severity).getD "normal"
    match st.incidents.find? (incidentKey e.event_id) with
    | some existing =>
      let upd : Incident × List Ticket :=
        match truthyStr e.status with
        | some s =>
          let new_status := pyLower s
          let tickets1 :=
            match existing.ticket_id with
            | some tid =>
              if new_status = "resolved" ∨ new_status = "ok" then
                st.tickets.map (fun t =>
                  if t.id = tid then { t with status := "resolved" } else t)
              else st.tickets
            | none => st.tickets
          ({ existing with status := new_status }, tickets1)
        | none => (existing, st.tickets)
      let inc2 := { upd.1 with severity := severity, message := e.message }
      let incidents2 :=
        updateFirst (incidentKey e.event_id) (fun _ => inc2) st.incidents
      .ok ({ st with tickets := upd.2, incidents := incidents2 }, inc2, false)
    | none =>
      let ticket_subject :=
        (truthyStr e.problem).getD ("Zabbix incident " ++ e.event_id)
      let ticket : Ticket :=
        { id := st.next_ticket_id
          client_id := client.id
          subject := "[Zabbix] " ++ ticket_subject
          description := e.message
          priority := priority
          status := "open"
          assigned_to := (truthyStr e.assigned_to).getD "Monitoring"
          due_date := if priority = "high" then some (today + 1) else none }
      let occurred_at := match e.occurred_at with | some t => t | none => now
      let incident : Incident :=
        { id := st.next_incident_id
          client_id := client.id
          source := "zabbix"
          external_id := e.event_id
          severity := severity
          message := e.message
          status := pyLower (e.status.getD "open")
          occurred_at := occurred_at
          ticket_id := some ticket.id }
      .ok ({ st with
              tickets := st.tickets ++ [ticket]
              incidents := st.incidents ++ [incident]
              next_ticket_id := st.next_ticket_id + 1
              next_incident_id := st.next_incident_id + 1 },
           incident, true)

/-- One suggestion record emitted by `optimise_schedule`. -/
structure OptSuggestion where
  appointment_id : Nat
  client : Option String
  assigned_engineer : Option String
  recommended_engineer : String
  current_start : Int
  optimized_start : Int
  optimized_end : Int
  travel_buffer_minutes : Int
  notes : Option String
deriving DecidableEq

/-- The response of `optimise_schedule` (minus `generated_at`). -/
structure SchedulePlan where
  date : Int
  appointments_considered : Nat
  reassignments : Nat
  suggestions : List OptSuggestion
deriving DecidableEq

/-- Request payload of `POST /schedule/optimize`.  `date` is `none` when the
key is absent and `some none` when present but `datetime.fromisoformat`
raises; numeric fields arrive as integers (the JSON layer's `int(...)`
coercion is outside the embedding). -/
structure OptimizeRequest where
  date : Option (Option Int)
  travel_buffer_minutes : Option Int
  workday_minutes : Option Int
  engineers : List String
deriving DecidableEq

/-- `engineer_slots[e] = v` on the insertion-ordered dict. -/
def setSlot (e : String) (v : Int) : List (String × Int) → List (String × Int)
  | [] => [(e, v)]
  | (k, w) :: rest => if k = e then (k, v) :: rest else (k, w) :: setSlot e v rest

/-- Tail of `min(engineer_slots, key=engineer_slots.get)`: first key carrying
the minimal value so far wins ties. -/
def minSlotGo (k : String) (v : Int) : List (String × Int) → String
  | [] => k
  | (k2, v2) :: rest => if v2 < v then minSlotGo k2 v2 rest else minSlotGo k v rest

/-- `min(engineer_slots, key=engineer_slots.get)` over the insertion-ordered
dict (`routes.py` line 1094), `none` on an empty dict. -/
def minSlotKey : List (String × Int) → Option String
  | [] => none
  | (k, v) :: rest => some (minSlotGo k v rest)

/-- Loop state of the optimizer pass. -/
structure OptState where
  slots : List (String × Int)
  reassigned : Nat
  suggestions : List OptSuggestion
deriving DecidableEq

/-- Body of the `for appointment in appointments` loop of `optimise_schedule`
(`routes.py` lines 1087-1123). -/
def optStep (day_start day_end travel_buffer : Int) (st : OptState)
    (a : Appointment) : OptState :=
  let eng0 := truthyStr a.assigned_to
  let slots :=
    match eng0 with
    | some e =>
      if (st.slots.lookup e).isNone then st.slots ++ [(e, day_start)]
      else st.slots
    | none => st.slots
  let pick : String × List (String × Int) × Nat :=
    match eng0 with
    | some e => (e, slots, st.reassigned)
    | none =>
      match minSlotKey slots with
      | some e => (e, slots, st.reassigned + 1)
      | none => ("Unassigned", slots ++ [("Unassigned", day_start)],
                 st.reassigned + 1)
  let engineer := pick.1
  let slots := pick.2.1
  let reassigned := pick.2.2
  let slot := (slots.lookup engineer).getD day_start
  let suggested_start := max a.start_time slot
  let reason0 : Option String :=
    if a.start_time < suggested_start then
      some "Resolved overlap with preceding visit"
    else none
  let suggested_end := suggested_start + a.duration_minutes
  let reason :=
    if day_end < suggested_end + travel_buffer then
      some "Extends beyond workday; consider another engineer"
    else reason0
  { slots := setSlot engineer (suggested_end + travel_buffer) slots
    reassigned := reassigned
    suggestions := st.suggestions ++ [{
      appointment_id := a.id
      client := a.client_name
      assigned_engineer := a.assigned_to
      recommended_engineer := engineer
      current_start := a.start_time
      optimized_start := suggested_start
      optimized_end := suggested_end
      travel_buffer_minutes := travel_buffer
      notes := reason }] }

/-- The optimizer pass over the (already filtered and sorted) day's
appointments, starting from the registered engineers' slots. -/
def optimise_core (day_start day_end travel_buffer : Int)
    (init_slots : List (String × Int)) (appointments : List Appointment) :
    OptState :=
  appointments.foldl (optStep day_start day_end travel_buffer)
    { slots := init_slots, reassigned := 0, suggestions := [] }

/-- Stable insertion into a start-time-sorted list. -/
def insertByStart (a : Appointment) : List Appointment → List Appointment
  | [] => [a]
  | b :: bs =>
      if a.start_time ≤ b.start_time then a :: b :: bs
      else b :: insertByStart a bs

/-- Stable sort by ascending `start_time`, embedding
`order_by(Appointment.start_time.asc())`. -/
def sortByStart : List Appointment → List Appointment
  | [] => []
  | a :: rest => insertByStart a (sortByStart rest)

/-- `optimise_schedule` (`routes.py` lines 1049-1133).  `stored` is the
appointment table; the query filter keeps `status="scheduled"` rows whose
`start_time` lies in `[date 00:00, date 23:59]` (`time.max` at minute
granularity is minute 1439). -/
def optimise_schedule (stored : List Appointment) (req : OptimizeRequest) :
    Except ApiError SchedulePlan :=
  match req.date with
  | none => .error (.badRequest "A target date is required")
  | some none => .error (.badRequest "Invalid date")
  | some (some target_date) =>
    let travel_buffer := req.travel_buffer_minutes.getD 30
    let workday_minutes := req.workday_minutes.getD 480
    let day_start := target_date * 1440 + 540
    let day_end := day_start + workday_minutes
    let init_slots := req.engineers.foldl (fun s e => setSlot e day_start s) []
    let appointments := sortByStart (stored.filter (fun a =>
      a.status == "scheduled" &&
        decide (target_date * 1440 ≤ a.start_time) &&
        decide (a.start_time ≤ target_date * 1440 + 1439)))
    let res := optimise_core day_start day_end travel_buffer init_slots
      appointments
    .ok { date := target_date
          appointments_considered := appointments.length
          reassignments := res.reassigned
          suggestions := res.suggestions }

/-! ## Claim C2: the severity escalation table -/

/-- Claim C2: for every input severity string (after lowercasing), disaster
and high map to priority "high", average and warning map to "normal",
information and not_classified map to "low", and any other severity maps to
"normal"; the function is total (pure, never fails). -/
theorem severity_escalation_table (s : String) :
    priority_for s =
      (if pyLower s = "disaster" ∨ pyLower s = "high" then "high"
       else if pyLower s = "average" ∨ pyLower s = "warning" then "normal"
       else if pyLower s = "information" ∨ pyLower s = "not_classified" then
         "low"
       else "normal") := by
  by_cases h1 : pyLower s = "disaster" <;>
    by_cases h2 : pyLower s = "high" <;>
      by_cases h3 : pyLower s = "average" <;>
        by_cases h4 : pyLower s = "warning" <;>
          by_cases h5 : pyLower s = "information" <;>
            by_cases h6 : pyLower s = "not_classified" <;>
              simp_all [priority_for, SEVERITY_PRIORITY_MAP, List.lookup,
                beq_eq_decide]

/-! ## Claim C3: churn probability bounds and level thresholds -/

/-- Bounds for the capped churn sum: each heuristic increment is
non-negative, so the capped probability lies in `[0.05, 0.95]`. -/
theorem churn_sum_bounds (a b c d e : ℚ) (ha : 0 ≤ a) (hb : 0 ≤ b)
    (hc : 0 ≤ c) (hd : 0 ≤ d) (he : 0 ≤ e) :
    (0.05 : ℚ) ≤ min (0.05 + a + b + c + d + e) 0.95 ∧
      min (0.05 + a + b + c + d + e) 0.95 ≤ 0.95 := by
  constructor
  · refine le_min (by linarith) (by norm_num)
  · exact min_le_right _ _

/-- The level if-chain of `calculate_churn_risk`, characterised. -/
theorem churn_label_cases (q : ℚ) :
    ((if q ≥ 0.6 then "high" else if q ≥ 0.35 then "medium" else "low")
        = "high" ↔ 0.6 ≤ q) ∧
      ((if q ≥ 0.6 then "high" else if q ≥ 0.35 then "medium" else "low")
        = "medium" ↔ 0.35 ≤ q ∧ q < 0.6) ∧
      ((if q ≥ 0.6 then "high" else if q ≥ 0.35 then "medium" else "low")
        = "low" ↔ q < 0.35) := by
  by_cases hq1 : q ≥ 0.6
  · rw [if_pos hq1]
    exact ⟨iff_of_true rfl hq1,
      iff_of_false (by decide) (fun h => absurd h.2 (not_lt.mpr hq1)),
      iff_of_false (by decide) (fun h => absurd hq1 (by linarith))⟩
  · rw [if_neg hq1]
    by_cases hq2 : q ≥ 0.35
    · rw [if_pos hq2]
      exact ⟨iff_of_false (by decide) (fun h => absurd h hq1),
        iff_of_true rfl ⟨hq2, lt_of_not_ge hq1⟩,
        iff_of_false (by decide) (fun h => absurd hq2 (not_le.mpr h))⟩
    · rw [if_neg hq2]
      exact ⟨iff_of_false (by decide) (fun h => absurd h hq1),
        iff_of_false (by decide) (fun h => absurd h.1 hq2),
        iff_of_true rfl (lt_of_not_ge hq2)⟩

/-- Claim C3: for every client and every combination of ticket, task and
appointment inputs, the churn probability satisfies
`0.05 ≤ probability ≤ 0.95`, and the level is "high" exactly when
`probability ≥ 0.6`, "medium" exactly when `0.35 ≤ probability < 0.6`, and
"low" otherwise. -/
theorem churn_risk_bounds_and_levels (now today : Int) (client : Client)
    (tickets : List Ticket) (tasks : List Task)
    (appointments : List Appointment) :
    (0.05 : ℚ) ≤
        (calculate_churn_risk now today client tickets tasks appointments).1 ∧
      (calculate_churn_risk now today client tickets tasks appointments).1
        ≤ 0.95 ∧
      ((calculate_churn_risk now today client tickets tasks appointments).2
          = "high" ↔
        0.6 ≤
          (calculate_churn_risk now today client tickets tasks
            appointments).1) ∧
      ((calculate_churn_risk now today client tickets tasks appointments).2
          = "medium" ↔
        0.35 ≤
            (calculate_churn_risk now today client tickets tasks
              appointments).1 ∧
          (calculate_churn_risk now today client tickets tasks
            appointments).1 < 0.6) ∧
      ((calculate_churn_risk now today client tickets tasks appointments).2
          = "low" ↔
        (calculate_churn_risk now today client tickets tasks
          appointments).1 < 0.35) := by
  dsimp only [calculate_churn_risk]
  have hbounds := churn_sum_bounds
    (min 0.3 (((tickets.filter (fun t => t.status == "open")).length : ℚ)
      * 0.05))
    (min 0.3 (((tickets.filter
      (fun t => t.status == "open" && t.priority == "high")).length : ℚ)
      * 0.1))
    (min 0.2 (((tasks.filter (fun t =>
      t.status != "completed" &&
        (match t.due_date with
         | some d => decide (d < today)
         | none => false))).length : ℚ) * 0.08))
    (if (appointments.filter (fun a => a.status == "cancelled")).length ≠ 0
      then (0.1 : ℚ) else 0)
    (if 30 < (now - client.updated_at).fdiv 1440 then (0.05 : ℚ) else 0)
    (le_min (by norm_num) (by positivity))
    (le_min (by norm_num) (by positivity))
    (le_min (by norm_num) (by positivity))
    (by split <;> norm_num)
    (by split <;> norm_num)
  have hlabel := churn_label_cases
    (min (0.05
      + min 0.3 (((tickets.filter (fun t => t.status == "open")).length : ℚ)
        * 0.05)
      + min 0.3 (((tickets.filter
        (fun t => t.status == "open" && t.priority == "high")).length : ℚ)
        * 0.1)
      + min 0.2 (((tasks.filter (fun t =>
        t.status != "completed" &&
          (match t.due_date with
           | some d => decide (d < today)
           | none => false))).length : ℚ) * 0.08)
      + (if (appointments.filter
          (fun a => a.status == "cancelled")).length ≠ 0
         then (0.1 : ℚ) else 0)
      + (if 30 < (now - client.updated_at).fdiv 1440 then (0.05 : ℚ)
         else 0)) 0.95)
  exact ⟨hbounds.1, hbounds.2, hlabel.1, hlabel.2.1, hlabel.2.2⟩

/-! ## Claim C4: overlap resolution scenario -/

/-- Claim C4: optimizing date `D` with engineers `{"Alice"}` and a 30-minute
travel buffer, over exactly two scheduled 60-minute appointments for Alice on
`D` starting 09:00 (minute 540) and 09:15 (minute 555), suggests minute 630
(10:30) as the second appointment's optimized start. -/
theorem optimizer_overlap_scenario (D : Int) (x1 x2 : Appointment)
    (req : OptimizeRequest) (plan : SchedulePlan)
    (h1s : x1.start_time = D * 1440 + 540) (h1d : x1.duration_minutes = 60)
    (h1st : x1.status = "scheduled") (h1a : x1.assigned_to = some "Alice")
    (h2s : x2.start_time = D * 1440 + 555) (h2d : x2.duration_minutes = 60)
    (h2st : x2.status = "scheduled") (h2a : x2.assigned_to = some "Alice")
    (hdate : req.date = some (some D))
    (htb : req.travel_buffer_minutes = some 30)
    (heng : req.engineers = ["Alice"])
    (h : optimise_schedule [x1, x2] req = .ok plan) :
    (plan.suggestions.map (fun s => s.optimized_start)).get? 1 =
      some (D * 1440 + 630) := by
  obtain ⟨i1, c1, n1, s1, d1, st1, a1⟩ := x1
  obtain ⟨i2, c2, n2, s2, d2, st2, a2⟩ := x2
  obtain ⟨rd, rtb, rwd, reng⟩ := req
  dsimp only at h1s h1d h1st h1a h2s h2d h2st h2a hdate htb heng
  subst h1s h1d h1st h1a h2s h2d h2st h2a hdate htb heng
  have w1 : decide (D * 1440 ≤ D * 1440 + 540) = true := decide_eq_true (by omega)
  have w2 : decide (D * 1440 + 540 ≤ D * 1440 + 1439) = true :=
    decide_eq_true (by omega)
  have w3 : decide (D * 1440 ≤ D * 1440 + 555) = true := decide_eq_true (by omega)
  have w4 : decide (D * 1440 + 555 ≤ D * 1440 + 1439) = true :=
    decide_eq_true (by omega)
  have w5 : (D * 1440 + 540 : Int) ≤ D * 1440 + 555 := by omega
  have w6 : max (D * 1440 + 555) (D * 1440 + 540 + 60 + 30) =
      D * 1440 + 540 + 60 + 30 := max_eq_right (by omega)
  have w7 : (D * 1440 + 555 : Int) < D * 1440 + 540 + 60 + 30 := by omega
  simp only [optimise_schedule, Option.getD, List.filter, w1, w2, w3, w4, w5,
    w6, w7, sortByStart, insertByStart, optimise_core, optStep, setSlot,
    minSlotKey, minSlotGo, truthyStr, List.lookup, List.foldl, Bool.and_true,
    Bool.true_and, beq_self_eq_true, if_true, max_self, lt_self_iff_false,
    if_false, ite_true, ite_false, Option.isNone_some, Bool.false_eq_true,
    String.reduceEq, String.reduceBEq, reduceIte] at h
  obtain rfl := Except.ok.inj h
  simp only [List.map, List.nil_append, List.cons_append, List.get?,
    Option.some.injEq]
  omega

/-- Witness for the C4 theorem at day 0 and concrete appointments. -/
theorem optimizer_overlap_scenario_witness :
    ((SchedulePlan.suggestions
        ⟨0, 2, 0,
          [⟨1, some "Acme", some "Alice", "Alice", 540, 540, 600, 30, none⟩,
           ⟨2, some "Acme", some "Alice", "Alice", 555, 630, 690, 30,
            some "Resolved overlap with preceding visit"⟩]⟩).map
      (fun s => s.optimized_start)).get? 1 = some (0 * 1440 + 630) :=
  optimizer_overlap_scenario 0
    ⟨1, 5, some "Acme", 540, 60, "scheduled", some "Alice"⟩
    ⟨2, 5, some "Acme", 555, 60, "scheduled", some "Alice"⟩
    ⟨some (some 0), some 30, none, ["Alice"]⟩
    ⟨0, 2, 0,
      [⟨1, some "Acme", some "Alice", "Alice", 540, 540, 600, 30, none⟩,
       ⟨2, some "Acme", some "Alice", "Alice", 555, 630, 690, 30,
        some "Resolved overlap with preceding visit"⟩]⟩
    (by decide) (by decide) rfl rfl (by decide) (by decide) rfl rfl rfl rfl
    rfl rfl

/-! ## Claim C5: optimizer monotonicity per engineer -/

/-- The monotonicity relation of claim C5 between two suggestions for one
engineer: the later one starts no earlier than the former's end plus the
travel buffer, and end-times plus buffer are non-decreasing. -/
def optRel (b : Int) (s t : OptSuggestion) : Prop :=
  s.optimized_end + b ≤ t.optimized_start ∧
    s.optimized_end + b ≤ t.optimized_end + b

/-- The suggestions recommended to engineer `e`, in processing order. -/
def suggsFor (e : String) (l : List OptSuggestion) : List OptSuggestion :=
  l.filter (fun s => s.recommended_engineer == e)

theorem lookup_append_some {β : Type} {l1 l2 : List (String × β)} {e : String}
    {v : β} (h : l1.lookup e = some v) : (l1 ++ l2).lookup e = some v := by
  induction l1 with
  | nil => simp [List.lookup] at h
  | cons x xs ih =>
    obtain ⟨k, w⟩ := x
    simp only [List.lookup, List.cons_append] at h ⊢
    cases hk : (e == k)
    · simp only [hk] at h ⊢
      exact ih h
    · simp only [hk] at h ⊢
      exact h

theorem lookup_setSlot_self (eng : String) (v : Int)
    (l : List (String × Int)) : (setSlot eng v l).lookup eng = some v := by
  induction l with
  | nil => simp [setSlot, List.lookup]
  | cons x xs ih =>
    obtain ⟨k, w⟩ := x
    by_cases hk : k = eng
    · simp [setSlot, hk, List.lookup]
    · simp only [setSlot, if_neg hk, List.lookup,
        beq_eq_false_iff_ne.mpr (fun he => hk he.symm)]
      exact ih

theorem lookup_setSlot_ne (e eng : String) (v : Int)
    (l : List (String × Int)) (h : e ≠ eng) :
    (setSlot eng v l).lookup e = l.lookup e := by
  induction l with
  | nil => simp [setSlot, List.lookup, beq_eq_false_iff_ne.mpr h]
  | cons x xs ih =>
    obtain ⟨k, w⟩ := x
    by_cases hk : k = eng
    · subst hk
      simp [setSlot, List.lookup, beq_eq_false_iff_ne.mpr h]
    · simp only [setSlot, if_neg hk, List.lookup]
      cases he : (e == k)
      · simp only [ih]
      · rfl

/-- Loop invariant of the optimizer pass: per engineer, the emitted
suggestions are pairwise monotone, and the engineer's slot clock dominates
every emitted end-time plus buffer. -/
def OptInv (b : Int) (st : OptState) : Prop :=
  ∀ e, (suggsFor e st.suggestions).Pairwise (optRel b) ∧
    ∀ s ∈ suggsFor e st.suggestions,
      ∃ v, st.slots.lookup e = some v ∧ s.optimized_end + b ≤ v

theorem optInv_extend (day_start b dur : Int) (hb : 0 ≤ b) (hd : 0 ≤ dur)
    (st : OptState) (H : OptInv b st) (eng : String)
    (sl : List (String × Int))
    (hA : ∀ e v, st.slots.lookup e = some v → sl.lookup e = some v)
    (r : Nat) (aid : Nat) (acl aass note : Option String) (astart : Int) :
    OptInv b
      { slots := setSlot eng
          (max astart ((sl.lookup eng).getD day_start) + dur + b) sl
        reassigned := r
        suggestions := st.suggestions ++
          [{ appointment_id := aid, client := acl, assigned_engineer := aass,
             recommended_engineer := eng, current_start := astart,
             optimized_start := max astart ((sl.lookup eng).getD day_start),
             optimized_end :=
               max astart ((sl.lookup eng).getD day_start) + dur,
             travel_buffer_minutes := b, notes := note }] } := by
  intro e
  by_cases he : eng = e
  · subst he
    have hfil : suggsFor eng (st.suggestions ++
        [{ appointment_id := aid, client := acl, assigned_engineer := aass,
           recommended_engineer := eng, current_start := astart,
           optimized_start := max astart ((sl.lookup eng).getD day_start),
           optimized_end := max astart ((sl.lookup eng).getD day_start) + dur,
           travel_buffer_minutes := b, notes := note }]) =
        suggsFor eng st.suggestions ++
        [{ appointment_id := aid, client := acl, assigned_engineer := aass,
           recommended_engineer := eng, current_start := astart,
           optimized_start := max astart ((sl.lookup eng).getD day_start),
           optimized_end := max astart ((sl.lookup eng).getD day_start) + dur,
           travel_buffer_minutes := b, notes := note }] := by
      simp [suggsFor, List.filter_append, List.filter]
    constructor
    · rw [hfil]
      refine List.pairwise_append.mpr
        ⟨(H eng).1, List.pairwise_singleton _ _, ?_⟩
      intro s hs t ht
      rw [List.mem_singleton] at ht
      subst ht
      obtain ⟨v, hv, hle⟩ := (H eng).2 s hs
      have hsl : sl.lookup eng = some v := hA _ _ hv
      rw [hsl]
      refine ⟨le_trans hle ?_, le_trans hle ?_⟩
      · exact le_max_right _ _
      · have := le_max_right astart ((some v).getD day_start)
        simp only [Option.getD_some] at this ⊢
        linarith
    · rw [hfil]
      intro s hs
      refine ⟨max astart ((sl.lookup eng).getD day_start) + dur + b,
        lookup_setSlot_self _ _ _, ?_⟩
      rcases List.mem_append.mp hs with hs | hs
      · obtain ⟨v, hv, hle⟩ := (H eng).2 s hs
        have hsl : sl.lookup eng = some v := hA _ _ hv
        rw [hsl]
        simp only [Option.getD_some]
        have := le_max_right astart v
        linarith
      · rw [List.mem_singleton] at hs
        subst hs
        simp
  · have hfil : suggsFor e (st.suggestions ++
        [{ appointment_id := aid, client := acl, assigned_engineer := aass,
           recommended_engineer := eng, current_start := astart,
           optimized_start := max astart ((sl.lookup eng).getD day_start),
           optimized_end := max astart ((sl.lookup eng).getD day_start) + dur,
           travel_buffer_minutes := b, notes := note }]) =
        suggsFor e st.suggestions := by
      simp [suggsFor, List.filter_append, List.filter,
        beq_eq_false_iff_ne.mpr he]
    constructor
    · rw [hfil]
      exact (H e).1
    · rw [hfil]
      intro s hs
      obtain ⟨v, hv, hle⟩ := (H e).2 s hs
      refine ⟨v, ?_, hle⟩
      rw [lookup_setSlot_ne _ _ _ _ (fun hk => he hk.symm)]
      exact hA _ _ hv

theorem optStep_inv (day_start day_end b : Int) (hb : 0 ≤ b)
    (a : Appointment) (hd : 0 ≤ a.duration_minutes)
    (st : OptState) (H : OptInv b st) :
    OptInv b (optStep day_start day_end b st a) := by
  unfold optStep
  cases htr : truthyStr a.assigned_to with
  | some e =>
    cases hlk : (st.slots.lookup e).isNone with
    | false =>
      simp only [htr, hlk, Bool.false_eq_true, if_false, ite_false]
      exact optInv_extend day_start b _ hb hd st H e st.slots
        (fun _ _ h => h) _ _ _ _ _ _
    | true =>
      simp only [htr, hlk, if_true, ite_true]
      exact optInv_extend day_start b _ hb hd st H e
        (st.slots ++ [(e, day_start)]) (fun _ _ h => lookup_append_some h)
        _ _ _ _ _ _
  | none =>
    cases hmk : minSlotKey st.slots with
    | some e =>
      simp only [htr, hmk]
      exact optInv_extend day_start b _ hb hd st H e st.slots
        (fun _ _ h => h) _ _ _ _ _ _
    | none =>
      simp only [htr, hmk]
      exact optInv_extend day_start b _ hb hd st H "Unassigned"
        (st.slots ++ [("Unassigned", day_start)])
        (fun _ _ h => lookup_append_some h) _ _ _ _ _ _

theorem foldl_optStep_inv (day_start day_end b : Int) (hb : 0 ≤ b)
    (l : List Appointment) (hd : ∀ a ∈ l, 0 ≤ a.duration_minutes)
    (st : OptState) (H : OptInv b st) :
    OptInv b (l.foldl (optStep day_start day_end b) st) := by
  induction l generalizing st with
  | nil => exact H
  | cons a as ih =>
    exact ih (fun x hx => hd x (List.mem_cons_of_mem _ hx)) _
      (optStep_inv day_start day_end b hb a
        (hd a (List.mem_cons_self _ _)) st H)

theorem optimise_core_inv (day_start day_end b : Int) (hb : 0 ≤ b)
    (init : List (String × Int)) (appts : List Appointment)
    (hd : ∀ a ∈ appts, 0 ≤ a.duration_minutes) :
    OptInv b (optimise_core day_start day_end b init appts) := by
  refine foldl_optStep_inv day_start day_end b hb appts hd _ (fun e => ?_)
  simp [suggsFor, OptInv]

theorem mem_insertByStart {x a : Appointment} {l : List Appointment} :
    x ∈ insertByStart a l ↔ x ∈ a :: l := by
  induction l with
  | nil => simp [insertByStart]
  | cons c cs ih =>
    by_cases hc : a.start_time ≤ c.start_time
    · simp [insertByStart, hc]
    · simp only [insertByStart, if_neg hc, List.mem_cons, ih]
      tauto

theorem mem_sortByStart {x : Appointment} {l : List Appointment} :
    x ∈ sortByStart l ↔ x ∈ l := by
  induction l with
  | nil => simp [sortByStart]
  | cons a as ih =>
    simp only [sortByStart, mem_insertByStart, List.mem_cons, ih]

/-- Counterexample to claim C5 as stated: with a negative travel buffer
(which the optimizer accepts, see C6) Alice's suggested end-times strictly
decrease, so "end-times plus travel buffer non-decreasing for every run" is
false on the code. -/
theorem optimizer_monotonicity_counterexample :
    ∃ p, optimise_schedule
        [⟨1, 5, none, 540, 600, "scheduled", some "Alice"⟩,
         ⟨2, 5, none, 541, 1, "scheduled", some "Alice"⟩]
        ⟨some (some 0), some (-300), none, ["Alice"]⟩ = .ok p ∧
      p.suggestions.map (fun s => (s.recommended_engineer, s.optimized_end))
        = [("Alice", 1140), ("Alice", 841)] ∧
      ¬ ((1140 : Int) + (-300) ≤ 841 + (-300)) :=
  ⟨_, rfl, by decide, by decide⟩

/-- Claim C5, amended: for every run of the schedule optimizer whose travel
buffer is non-negative, over appointments with non-negative durations, and
for every engineer, successive suggestions for that engineer satisfy: the
next optimized start is at least the previous optimized end plus the travel
buffer, and end-times plus buffer are non-decreasing. -/
theorem optimizer_monotone_amended (stored : List Appointment)
    (req : OptimizeRequest) (plan : SchedulePlan)
    (h : optimise_schedule stored req = .ok plan)
    (hb : 0 ≤ req.travel_buffer_minutes.getD 30)
    (hd : ∀ a ∈ stored, 0 ≤ a.duration_minutes) (e : String) :
    List.Chain' (optRel (req.travel_buffer_minutes.getD 30))
      (suggsFor e plan.suggestions) := by
  unfold optimise_schedule at h
  cases hdate : req.date with
  | none =>
    rw [hdate] at h
    exact absurd h (by simp)
  | some o =>
    cases o with
    | none =>
      rw [hdate] at h
      exact absurd h (by simp)
    | some d =>
      rw [hdate] at h
      simp only [Except.ok.injEq] at h
      subst h
      refine List.Pairwise.chain' ?_
      refine (optimise_core_inv _ _ _ hb _ _ ?_ e).1
      intro a ha
      exact hd a ((List.mem_filter.mp (mem_sortByStart.mp ha)).1)

/-- Witness for the amended C5 theorem on a concrete two-appointment run. -/
theorem optimizer_monotone_amended_witness :
    List.Chain' (optRel 30) (suggsFor "Alice"
      (((optimise_schedule
          [⟨1, 5, none, 540, 60, "scheduled", some "Alice"⟩,
           ⟨2, 5, none, 555, 60, "scheduled", some "Alice"⟩]
          ⟨some (some 0), some 30, none, ["Alice"]⟩).toOption.map
        SchedulePlan.suggestions).getD [])) :=
  optimizer_monotone_amended
    [⟨1, 5, none, 540, 60, "scheduled", some "Alice"⟩,
     ⟨2, 5, none, 555, 60, "scheduled", some "Alice"⟩]
    ⟨some (some 0), some 30, none, ["Alice"]⟩ _ rfl (by decide) (by decide)
    "Alice"

/-! ## Claim C6: optimizer failure modes -/

/-- Counterexample to claim C6 as stated: `travel_buffer_minutes = -30` is
not a positive integer, yet the optimizer succeeds instead of failing with
InvalidInput (it performs no positivity check on the buffer). -/
theorem optimizer_validation_counterexample :
    optimise_schedule [] ⟨some (some 0), some (-30), none, []⟩ =
      .ok ⟨0, 0, 0, []⟩ := rfl

/-- Claim C6, amended: the schedule optimizer fails with an InvalidInput
error exactly when the target date is missing or unparseable; it never
validates `travel_buffer_minutes` or `workday_minutes` (non-positive values
are accepted), and `duration_minutes` positivity is enforced by the
appointment creation/update endpoints, not here. -/
theorem optimizer_validation_amended (stored : List Appointment)
    (req : OptimizeRequest) :
    (∃ err, optimise_schedule stored req = .error err) ↔
      (req.date = none ∨ req.date = some none) := by
  cases hdate : req.date with
  | none => simp [optimise_schedule, hdate]
  | some o =>
    cases o with
    | none => simp [optimise_schedule, hdate]
    | some d => simp [optimise_schedule, hdate]

/-! ## Claims C7, C8, C10: the ingest update path -/

/-- Claim C7: on the update path the incident's severity and message are
overwritten with the new values in every update; and whenever the event
provides a (truthy) status lowercasing into {resolved, ok} and the incident
has a linked ticket, that ticket's status becomes "resolved". -/
theorem ingest_update_resolves_ticket (now today : Int) (st : Store)
    (e : ZabbixEvent) (hc : ∃ c ∈ st.clients, c.id = e.client_id)
    (existing : Incident)
    (hfind : st.incidents.find? (incidentKey e.event_id) = some existing)
    (st' : Store) (inc' : Incident) (created : Bool)
    (h : ingest_zabbix_event now today st e = .ok (st', inc', created)) :
    created = false ∧ inc'.severity = pyLower e.severity ∧
      inc'.message = e.message ∧
      ∀ s, truthyStr e.status = some s →
        (pyLower s = "resolved" ∨ pyLower s = "ok") →
        ∀ tid, existing.ticket_id = some tid →
          ∀ t ∈ st'.tickets, t.id = tid → t.status = "resolved" := by
  unfold ingest_zabbix_event at h
  obtain ⟨c, hcmem, hcid⟩ := hc
  have hsome : (st.clients.find? (fun c => c.id == e.client_id)).isSome :=
    List.find?_isSome.mpr ⟨c, hcmem, by simp [hcid]⟩
  obtain ⟨cl, hcl⟩ := Option.isSome_iff_exists.mp hsome
  rw [hcl, hfind] at h
  cases htr : truthyStr e.status with
  | none =>
    simp only [htr, Except.ok.injEq, Prod.mk.injEq] at h
    obtain ⟨hst, hinc, hcr⟩ := h
    subst hst hinc hcr
    refine ⟨rfl, rfl, rfl, ?_⟩
    intro s hs
    exact Option.noConfusion hs
  | some s0 =>
    simp only [htr] at h
    cases htid2 : existing.ticket_id with
    | none =>
      simp only [htid2, Except.ok.injEq, Prod.mk.injEq] at h
      obtain ⟨hst, hinc, hcr⟩ := h
      subst hst hinc hcr
      refine ⟨rfl, rfl, rfl, ?_⟩
      intro s hs hres tid htid
      exact Option.noConfusion htid
    | some tid0 =>
      simp only [htid2] at h
      by_cases hres0 : pyLower s0 = "resolved" ∨ pyLower s0 = "ok"
      · rw [if_pos hres0] at h
        simp only [Except.ok.injEq, Prod.mk.injEq] at h
        obtain ⟨hst, hinc, hcr⟩ := h
        subst hst hinc hcr
        refine ⟨rfl, rfl, rfl, ?_⟩
        intro s hs hres tid htid t ht hid
        obtain rfl := Option.some.inj htid
        obtain ⟨t0, ht0, rfl⟩ := List.mem_map.mp ht
        by_cases h0 : t0.id = tid0
        · simp [h0]
        · rw [if_neg h0] at hid ⊢
          exact absurd hid h0
      · rw [if_neg hres0] at h
        simp only [Except.ok.injEq, Prod.mk.injEq] at h
        obtain ⟨hst, hinc, hcr⟩ := h
        subst hst hinc hcr
        refine ⟨rfl, rfl, rfl, ?_⟩
        intro s hs hres tid htid
        obtain rfl := Option.some.inj hs
        exact absurd hres hres0

/-- Claim C8: on the update path, the incident's `client_id` and
`occurred_at` are left unchanged whatever the incoming event carries. -/
theorem ingest_update_preserves_client_and_time (now today : Int) (st : Store)
    (e : ZabbixEvent) (hc : ∃ c ∈ st.clients, c.id = e.client_id)
    (existing : Incident)
    (hfind : st.incidents.find? (incidentKey e.event_id) = some existing)
    (st' : Store) (inc' : Incident) (created : Bool)
    (h : ingest_zabbix_event now today st e = .ok (st', inc', created)) :
    created = false ∧ inc'.client_id = existing.client_id ∧
      inc'.occurred_at = existing.occurred_at := by
  unfold ingest_zabbix_event at h
  obtain ⟨c, hcmem, hcid⟩ := hc
  have hsome : (st.clients.find? (fun c => c.id == e.client_id)).isSome :=
    List.find?_isSome.mpr ⟨c, hcmem, by simp [hcid]⟩
  obtain ⟨cl, hcl⟩ := Option.isSome_iff_exists.mp hsome
  rw [hcl, hfind] at h
  cases htr : truthyStr e.status with
  | none =>
    simp only [htr, Except.ok.injEq, Prod.mk.injEq] at h
    obtain ⟨hst, hinc, hcr⟩ := h
    subst hst hinc hcr
    exact ⟨rfl, rfl, rfl⟩
  | some s =>
    simp only [htr, Except.ok.injEq, Prod.mk.injEq] at h
    obtain ⟨hst, hinc, hcr⟩ := h
    subst hst hinc hcr
    exact ⟨rfl, rfl, rfl⟩

/-- Claim C10: on the update path, no ticket's priority or due date is ever
modified (the escalation policy applies only on the create path). -/
theorem ingest_update_preserves_ticket_priority (now today : Int) (st : Store)
    (e : ZabbixEvent) (hc : ∃ c ∈ st.clients, c.id = e.client_id)
    (existing : Incident)
    (hfind : st.incidents.find? (incidentKey e.event_id) = some existing)
    (st' : Store) (inc' : Incident) (created : Bool)
    (h : ingest_zabbix_event now today st e = .ok (st', inc', created)) :
    st'.tickets.map (fun t => (t.id, t.priority, t.due_date)) =
      st.tickets.map (fun t => (t.id, t.priority, t.due_date)) := by
  unfold ingest_zabbix_event at h
  obtain ⟨c, hcmem, hcid⟩ := hc
  have hsome : (st.clients.find? (fun c => c.id == e.client_id)).isSome :=
    List.find?_isSome.mpr ⟨c, hcmem, by simp [hcid]⟩
  obtain ⟨cl, hcl⟩ := Option.isSome_iff_exists.mp hsome
  rw [hcl, hfind] at h
  cases htr : truthyStr e.status with
  | none =>
    simp only [htr, Except.ok.injEq, Prod.mk.injEq] at h
    obtain ⟨hst, hinc, hcr⟩ := h
    subst hst
    rfl
  | some s =>
    simp only [htr, Except.ok.injEq, Prod.mk.injEq] at h
    obtain ⟨hst, hinc, hcr⟩ := h
    subst hst
    cases htid : existing.ticket_id with
    | none => simp [htid]
    | some tid =>
      simp only [htid]
      by_cases hres : pyLower s = "resolved" ∨ pyLower s = "ok"
      · rw [if_pos hres]
        rw [List.map_map]
        refine List.map_congr_left ?_
        intro t _
        by_cases h0 : t.id = tid <;> simp [h0]
      · rw [if_neg hres]

/-- Witness for the C7 theorem: a resolving event over a one-incident store
overwrites severity/message and flips the linked ticket to "resolved". -/
theorem ingest_update_resolves_ticket_witness :
    (false = false) ∧
      (Incident.severity ⟨1, 5, "zabbix", "EVT-1", "high", "still down",
        "resolved", 100, some 1⟩ = pyLower "high") ∧
      (Incident.message ⟨1, 5, "zabbix", "EVT-1", "high", "still down",
        "resolved", 100, some 1⟩ = "still down") ∧
      ∀ s, truthyStr (some "resolved") = some s →
        (pyLower s = "resolved" ∨ pyLower s = "ok") →
        ∀ tid, Incident.ticket_id ⟨1, 5, "zabbix", "EVT-1", "disaster",
            "down", "open", 100, some 1⟩ = some tid →
          ∀ t ∈ Store.tickets ⟨[⟨5, 0⟩],
              [⟨1, 5, "s", "d", "high", "resolved", "Monitoring", none⟩],
              [⟨1, 5, "zabbix", "EVT-1", "high", "still down", "resolved",
                100, some 1⟩], 2, 2⟩,
            t.id = tid → t.status = "resolved" :=
  ingest_update_resolves_ticket 100 0
    ⟨[⟨5, 0⟩], [⟨1, 5, "s", "d", "high", "open", "Monitoring", none⟩],
     [⟨1, 5, "zabbix", "EVT-1", "disaster", "down", "open", 100, some 1⟩],
     2, 2⟩
    ⟨"EVT-1", 5, "high", "still down", some "resolved", none, none, none⟩
    ⟨⟨5, 0⟩, by decide, rfl⟩
    ⟨1, 5, "zabbix", "EVT-1", "disaster", "down", "open", 100, some 1⟩
    rfl
    ⟨[⟨5, 0⟩], [⟨1, 5, "s", "d", "high", "resolved", "Monitoring", none⟩],
     [⟨1, 5, "zabbix", "EVT-1", "high", "still down", "resolved", 100,
       some 1⟩], 2, 2⟩
    ⟨1, 5, "zabbix", "EVT-1", "high", "still down", "resolved", 100, some 1⟩
    false rfl

/-- Witness for the C8 theorem: the second event carries a different
(existing) client and a different occurred_at, both silently ignored. -/
theorem ingest_update_preserves_client_and_time_witness :
    (false = false) ∧
      (Incident.client_id ⟨1, 5, "zabbix", "EVT-1", "average", "msg2",
          "open", 100, some 1⟩ =
        Incident.client_id ⟨1, 5, "zabbix", "EVT-1", "disaster", "down",
          "open", 100, some 1⟩) ∧
      (Incident.occurred_at ⟨1, 5, "zabbix", "EVT-1", "average", "msg2",
          "open", 100, some 1⟩ =
        Incident.occurred_at ⟨1, 5, "zabbix", "EVT-1", "disaster", "down",
          "open", 100, some 1⟩) :=
  ingest_update_preserves_client_and_time 100 0
    ⟨[⟨5, 0⟩, ⟨7, 0⟩],
     [⟨1, 5, "s", "d", "high", "open", "Monitoring", none⟩],
     [⟨1, 5, "zabbix", "EVT-1", "disaster", "down", "open", 100, some 1⟩],
     2, 2⟩
    ⟨"EVT-1", 7, "average", "msg2", none, some 999, none, none⟩
    ⟨⟨7, 0⟩, by decide, rfl⟩
    ⟨1, 5, "zabbix", "EVT-1", "disaster", "down", "open", 100, some 1⟩
    rfl
    ⟨[⟨5, 0⟩, ⟨7, 0⟩],
     [⟨1, 5, "s", "d", "high", "open", "Monitoring", none⟩],
     [⟨1, 5, "zabbix", "EVT-1", "average", "msg2", "open", 100, some 1⟩],
     2, 2⟩
    ⟨1, 5, "zabbix", "EVT-1", "average", "msg2", "open", 100, some 1⟩
    false rfl

/-- Witness for the C10 theorem: resolving the incident's ticket leaves every
ticket's id, priority and due date untouched. -/
theorem ingest_update_preserves_ticket_priority_witness :
    (Store.tickets ⟨[⟨5, 0⟩],
        [⟨1, 5, "s", "d", "high", "resolved", "Monitoring", none⟩],
        [⟨1, 5, "zabbix", "EVT-1", "high", "still down", "resolved", 100,
          some 1⟩], 2, 2⟩).map (fun t => (t.id, t.priority, t.due_date)) =
      (Store.tickets ⟨[⟨5, 0⟩],
        [⟨1, 5, "s", "d", "high", "open", "Monitoring", none⟩],
        [⟨1, 5, "zabbix", "EVT-1", "disaster", "down", "open", 100,
          some 1⟩], 2, 2⟩).map (fun t => (t.id, t.priority, t.due_date)) :=
  ingest_update_preserves_ticket_priority 100 0
    ⟨[⟨5, 0⟩], [⟨1, 5, "s", "d", "high", "open", "Monitoring", none⟩],
     [⟨1, 5, "zabbix", "EVT-1", "disaster", "down", "open", 100, some 1⟩],
     2, 2⟩
    ⟨"EVT-1", 5, "high", "still down", some "resolved", none, none, none⟩
    ⟨⟨5, 0⟩, by decide, rfl⟩
    ⟨1, 5, "zabbix", "EVT-1", "disaster", "down", "open", 100, some 1⟩
    rfl
    ⟨[⟨5, 0⟩], [⟨1, 5, "s", "d", "high", "resolved", "Monitoring", none⟩],
     [⟨1, 5, "zabbix", "EVT-1", "high", "still down", "resolved", 100,
       some 1⟩], 2, 2⟩
    ⟨1, 5, "zabbix", "EVT-1", "high", "still down", "resolved", 100, some 1⟩
    false rfl

/-! ## Claim C1: ingest idempotence -/

theorem find?_append_none {α : Type} {p : α → Bool} {l1 l2 : List α}
    (h : l1.find? p = none) : (l1 ++ l2).find? p = l2.find? p := by
  induction l1 with
  | nil => rfl
  | cons x xs ih =>
    simp only [List.find?] at h ⊢
    cases hx : p x
    · rw [hx] at h
      exact ih h
    · rw [hx] at h
      exact absurd h (by simp)

theorem updateFirst_append_left {α : Type} {p : α → Bool} {f : α → α}
    {l1 l2 : List α} (h : ∀ x ∈ l1, p x = false) :
    updateFirst p f (l1 ++ l2) = l1 ++ updateFirst p f l2 := by
  induction l1 with
  | nil => rfl
  | cons x xs ih =>
    simp only [List.cons_append, updateFirst, h x (List.mem_cons_self _ _),
      Bool.false_eq_true, if_false]
    rw [show xs.append l2 = xs ++ l2 from rfl,
      ih (fun y hy => h y (List.mem_cons_of_mem _ hy))]

theorem filter_eq_nil_of_false {α : Type} {p : α → Bool} {l : List α}
    (h : ∀ x ∈ l, p x = false) : l.filter p = [] := by
  induction l with
  | nil => rfl
  | cons x xs ih =>
    simp only [List.filter, h x (List.mem_cons_self _ _)]
    exact ih (fun y hy => h y (List.mem_cons_of_mem _ hy))

/-- Claim C1: ingesting an event for a fresh `(source, external_id)` key
creates a Ticket and Incident (`created = true`); a second ingest with the
same key (any client/payload) takes the update path: `created = false`, no
Ticket is added, the store still holds exactly one incident for the key, and
that incident still points at the Ticket the first call created. -/
theorem ingest_idempotent (st0 : Store) (e1 e2 : ZabbixEvent)
    (now1 today1 now2 today2 : Int)
    (hfresh : ∀ i ∈ st0.incidents, incidentKey e1.event_id i = false)
    (hc1 : ∃ c ∈ st0.clients, c.id = e1.client_id)
    (hc2 : ∃ c ∈ st0.clients, c.id = e2.client_id)
    (heq : e2.event_id = e1.event_id)
    (st1 st2 : Store) (inc1 inc2 : Incident) (created1 created2 : Bool)
    (h1 : ingest_zabbix_event now1 today1 st0 e1 = .ok (st1, inc1, created1))
    (h2 : ingest_zabbix_event now2 today2 st1 e2 = .ok (st2, inc2, created2)) :
    created1 = true ∧ created2 = false ∧
      st1.tickets.length = st0.tickets.length + 1 ∧
      st2.tickets.length = st1.tickets.length ∧
      (st2.incidents.filter (incidentKey e1.event_id)).length = 1 ∧
      inc2.ticket_id = inc1.ticket_id := by
  unfold ingest_zabbix_event at h1
  obtain ⟨c1v, hc1m, hc1id⟩ := hc1
  have hsome1 : (st0.clients.find? (fun c => c.id == e1.client_id)).isSome :=
    List.find?_isSome.mpr ⟨c1v, hc1m, by simp [hc1id]⟩
  obtain ⟨cl1, hcl1⟩ := Option.isSome_iff_exists.mp hsome1
  have hnone : st0.incidents.find? (incidentKey e1.event_id) = none :=
    List.find?_eq_none.mpr (fun x hx => by simp [hfresh x hx])
  rw [hcl1, hnone] at h1
  simp only [Except.ok.injEq, Prod.mk.injEq] at h1
  obtain ⟨hst1, hinc1, hcr1⟩ := h1
  subst hst1 hinc1 hcr1
  unfold ingest_zabbix_event at h2
  rw [heq] at h2
  obtain ⟨c2v, hc2m, hc2id⟩ := hc2
  have hsome2 : ((st0.clients).find? (fun c => c.id == e2.client_id)).isSome :=
    List.find?_isSome.mpr ⟨c2v, hc2m, by simp [hc2id]⟩
  obtain ⟨cl2, hcl2⟩ := Option.isSome_iff_exists.mp hsome2
  rw [show (({ st0 with
      tickets := _, incidents := _, next_ticket_id := _,
      next_incident_id := _ } : Store).clients) = st0.clients from rfl,
    hcl2] at h2
  have hkey : incidentKey e1.event_id
      ⟨st0.next_incident_id, cl1.id, "zabbix", e1.event_id,
        pyLower e1.severity, e1.message, pyLower (e1.status.getD "open"),
        (match e1.occurred_at with | some t => t | none => now1),
        some st0.next_ticket_id⟩ = true := by
    simp [incidentKey]
  rw [show (({ st0 with
      tickets := _, incidents := _, next_ticket_id := _,
      next_incident_id := _ } : Store).incidents) =
      st0.incidents ++
        [⟨st0.next_incident_id, cl1.id, "zabbix", e1.event_id,
          pyLower e1.severity, e1.message, pyLower (e1.status.getD "open"),
          (match e1.occurred_at with | some t => t | none => now1),
          some st0.next_ticket_id⟩] from rfl,
    find?_append_none hnone, List.find?_cons_of_pos _ hkey] at h2
  dsimp only at h2
  cases htr : truthyStr e2.status with
  | none =>
    rw [htr] at h2
    simp only [Except.ok.injEq, Prod.mk.injEq] at h2
    obtain ⟨hst2, hinc2, hcr2⟩ := h2
    subst hst2 hinc2 hcr2
    refine ⟨rfl, rfl, by simp, rfl, ?_, rfl⟩
    rw [show (Store.incidents { st0 with
        tickets := _, incidents := _, next_ticket_id := _,
        next_incident_id := _ }) = st0.incidents from rfl]
    rw [updateFirst_append_left (fun x hx => hfresh x hx)]
    rw [List.filter_append, filter_eq_nil_of_false (fun x hx => hfresh x hx)]
    simp [updateFirst, hkey, incidentKey, List.filter]
  | some s =>
    rw [htr] at h2
    dsimp only at h2
    by_cases hres : pyLower s = "resolved" ∨ pyLower s = "ok"
    · rw [if_pos hres] at h2
      simp only [Except.ok.injEq, Prod.mk.injEq] at h2
      obtain ⟨hst2, hinc2, hcr2⟩ := h2
      subst hst2 hinc2 hcr2
      refine ⟨rfl, rfl, by simp, by simp, ?_, rfl⟩
      rw [show (Store.incidents { st0 with
          tickets := _, incidents := _, next_ticket_id := _,
          next_incident_id := _ }) = st0.incidents from rfl]
      rw [updateFirst_append_left (fun x hx => hfresh x hx)]
      rw [List.filter_append, filter_eq_nil_of_false (fun x hx => hfresh x hx)]
      simp [updateFirst, hkey, incidentKey, List.filter]
    · rw [if_neg hres] at h2
      simp only [Except.ok.injEq, Prod.mk.injEq] at h2
      obtain ⟨hst2, hinc2, hcr2⟩ := h2
      subst hst2 hinc2 hcr2
      refine ⟨rfl, rfl, by simp, rfl, ?_, rfl⟩
      rw [show (Store.incidents { st0 with
          tickets := _, incidents := _, next_ticket_id := _,
          next_incident_id := _ }) = st0.incidents from rfl]
      rw [updateFirst_append_left (fun x hx => hfresh x hx)]
      rw [List.filter_append, filter_eq_nil_of_false (fun x hx => hfresh x hx)]
      simp [updateFirst, hkey, incidentKey, List.filter]

/-- Witness for the C1 theorem: `EVT-1` ingested twice on a store with one
client — one ticket after both calls, `created` true then false. -/
theorem ingest_idempotent_witness :
    (true = true) ∧ (false = false) ∧
      (Store.tickets ⟨[⟨5, 0⟩],
          [⟨1, 5, "[Zabbix] Zabbix incident EVT-1", "down", "high", "open",
            "Monitoring", some 1⟩],
          [⟨1, 5, "zabbix", "EVT-1", "disaster", "down", "open", 100,
            some 1⟩], 2, 2⟩).length =
        (Store.tickets ⟨[⟨5, 0⟩], [], [], 1, 1⟩).length + 1 ∧
      (Store.tickets ⟨[⟨5, 0⟩],
          [⟨1, 5, "[Zabbix] Zabbix incident EVT-1", "down", "high",
            "resolved", "Monitoring", some 1⟩],
          [⟨1, 5, "zabbix", "EVT-1", "high", "still down", "resolved", 100,
            some 1⟩], 2, 2⟩).length =
        (Store.tickets ⟨[⟨5, 0⟩],
          [⟨1, 5, "[Zabbix] Zabbix incident EVT-1", "down", "high", "open",
            "Monitoring", some 1⟩],
          [⟨1, 5, "zabbix", "EVT-1", "disaster", "down", "open", 100,
            some 1⟩], 2, 2⟩).length ∧
      ((Store.incidents ⟨[⟨5, 0⟩],
          [⟨1, 5, "[Zabbix] Zabbix incident EVT-1", "down", "high",
            "resolved", "Monitoring", some 1⟩],
          [⟨1, 5, "zabbix", "EVT-1", "high", "still down", "resolved", 100,
            some 1⟩], 2, 2⟩).filter (incidentKey "EVT-1")).length = 1 ∧
      Incident.ticket_id ⟨1, 5, "zabbix", "EVT-1", "high", "still down",
          "resolved", 100, some 1⟩ =
        Incident.ticket_id ⟨1, 5, "zabbix", "EVT-1", "disaster", "down",
          "open", 100, some 1⟩ :=
  ingest_idempotent ⟨[⟨5, 0⟩], [], [], 1, 1⟩
    ⟨"EVT-1", 5, "disaster", "down", none, none, none, none⟩
    ⟨"EVT-1", 5, "high", "still down", some "resolved", none, none, none⟩
    100 0 200 0 (by simp) ⟨⟨5, 0⟩, by decide, rfl⟩ ⟨⟨5, 0⟩, by decide, rfl⟩
    rfl
    ⟨[⟨5, 0⟩],
     [⟨1, 5, "[Zabbix] Zabbix incident EVT-1", "down", "high", "open",
       "Monitoring", some 1⟩],
     [⟨1, 5, "zabbix", "EVT-1", "disaster", "down", "open", 100, some 1⟩],
     2, 2⟩
    ⟨[⟨5, 0⟩],
     [⟨1, 5, "[Zabbix] Zabbix incident EVT-1", "down", "high", "resolved",
       "Monitoring", some 1⟩],
     [⟨1, 5, "zabbix", "EVT-1", "high", "still down", "resolved", 100,
       some 1⟩], 2, 2⟩
    ⟨1, 5, "zabbix", "EVT-1", "disaster", "down", "open", 100, some 1⟩
    ⟨1, 5, "zabbix", "EVT-1", "high", "still down", "resolved", 100, some 1⟩
    true false rfl rfl

/-! ## Claim C9: engineer load grouping and scoring -/

/-- A task qualifying for engineer `e`: `status != "completed"` and a truthy
`assigned_to` equal to `e`. -/
def qualTask (e : String) (t : Task) : Bool :=
  t.status != "completed" && (truthyStr t.assigned_to == some e)

/-- An appointment qualifying for engineer `e`: `status == "scheduled"` and a
truthy `assigned_to` equal to `e`. -/
def qualAppt (e : String) (a : Appointment) : Bool :=
  a.status == "scheduled" && (truthyStr a.assigned_to == some e)

theorem bumpLoad_lookup_self (e : String) (dt : Nat) (dm : Int)
    (w : List (String × Nat × Int)) :
    (bumpLoad e dt dm w).lookup e =
      some (((w.lookup e).getD (0, 0)).1 + dt,
        ((w.lookup e).getD (0, 0)).2 + dm) := by
  induction w with
  | nil => simp [bumpLoad, List.lookup]
  | cons x xs ih =>
    obtain ⟨k, v⟩ := x
    by_cases hk : k = e
    · subst hk
      simp [bumpLoad, List.lookup]
    · simp only [bumpLoad, if_neg hk, List.lookup,
        beq_eq_false_iff_ne.mpr (fun h : e = k => hk h.symm)]
      exact ih

theorem bumpLoad_lookup_ne (e e' : String) (dt : Nat) (dm : Int)
    (w : List (String × Nat × Int)) (h : e' ≠ e) :
    (bumpLoad e dt dm w).lookup e' = w.lookup e' := by
  induction w with
  | nil => simp [bumpLoad, List.lookup, beq_eq_false_iff_ne.mpr h]
  | cons x xs ih =>
    obtain ⟨k, v⟩ := x
    by_cases hk : k = e
    · subst hk
      simp [bumpLoad, List.lookup, beq_eq_false_iff_ne.mpr h]
    · simp only [bumpLoad, if_neg hk, List.lookup]
      cases he : (e' == k)
      · simp only [ih]
      · rfl

theorem bumpLoad_keys (e : String) (dt : Nat) (dm : Int)
    (w : List (String × Nat × Int)) :
    (bumpLoad e dt dm w).map Prod.fst =
      if (w.lookup e).isSome then w.map Prod.fst
      else w.map Prod.fst ++ [e] := by
  induction w with
  | nil => simp [bumpLoad, List.lookup]
  | cons x xs ih =>
    obtain ⟨k, v⟩ := x
    by_cases hk : k = e
    · subst hk
      simp [bumpLoad, List.lookup]
    · simp only [bumpLoad, if_neg hk, List.map, List.lookup,
        beq_eq_false_iff_ne.mpr (fun h : e = k => hk h.symm), ih]
      by_cases h2 : (xs.lookup e).isSome
      · simp [h2]
      · simp [h2]

theorem lookup_none_not_mem_keys {β : Type} {w : List (String × β)}
    {e : String} (h : w.lookup e = none) : e ∉ w.map Prod.fst := by
  induction w with
  | nil => simp
  | cons x xs ih =>
    obtain ⟨k, v⟩ := x
    simp only [List.lookup] at h
    cases hk : (e == k)
    · rw [hk] at h
      simp only [List.map, List.mem_cons]
      rintro (rfl | hm)
      · exact absurd rfl (beq_eq_false_iff_ne.mp hk)
      · exact ih h hm
    · rw [hk] at h
      exact absurd h (by simp)

theorem lookup_of_mem_nodup {β : Type} {w : List (String × β)}
    (h : (w.map Prod.fst).Nodup) {k : String} {v : β} (hm : (k, v) ∈ w) :
    w.lookup k = some v := by
  induction w with
  | nil => cases hm
  | cons x xs ih =>
    obtain ⟨k0, v0⟩ := x
    rcases List.mem_cons.mp hm with heq | hm2
    · obtain ⟨rfl, rfl⟩ := Prod.mk.injEq .. ▸ heq
      simp [List.lookup]
    · have hkeys := (List.nodup_cons.mp h).1
      have hk : k ≠ k0 := by
        rintro rfl
        exact hkeys (List.mem_map.mpr ⟨(k, v), hm2, rfl⟩)
      simp only [List.lookup, beq_eq_false_iff_ne.mpr hk]
      exact ih (List.nodup_cons.mp h).2 hm2

theorem lookup_isSome_of_mem {β : Type} {w : List (String × β)} {k : String}
    {v : β} (hm : (k, v) ∈ w) : (w.lookup k).isSome := by
  induction w with
  | nil => cases hm
  | cons x xs ih =>
    obtain ⟨k0, v0⟩ := x
    simp only [List.lookup]
    cases hk : (k == k0)
    · rcases List.mem_cons.mp hm with heq | hm2
      · obtain ⟨rfl, rfl⟩ := Prod.mk.injEq .. ▸ heq
        simp at hk
      · exact ih hm2
    · simp

theorem taskFold_lookup (tasks : List Task)
    (w : List (String × Nat × Int)) (e : String) :
    (((tasks.foldl loadTaskStep w).lookup e).getD (0, 0)).1 =
        ((w.lookup e).getD (0, 0)).1 + (tasks.filter (qualTask e)).length ∧
      (((tasks.foldl loadTaskStep w).lookup e).getD (0, 0)).2 =
        ((w.lookup e).getD (0, 0)).2 ∧
      ((tasks.foldl loadTaskStep w).lookup e).isSome =
        ((w.lookup e).isSome || !(tasks.filter (qualTask e)).isEmpty) := by
  induction tasks generalizing w with
  | nil => simp
  | cons t ts ih =>
    simp only [List.foldl_cons, List.filter_cons]
    by_cases hst : t.status = "completed"
    · have hq : qualTask e t = false := by simp [qualTask, hst]
      have hstep : loadTaskStep w t = w := by simp [loadTaskStep, hst]
      rw [hq, hstep]
      simpa using ih w
    · cases htr : truthyStr t.assigned_to with
      | none =>
        have hq : qualTask e t = false := by simp [qualTask, htr]
        have hstep : loadTaskStep w t = w := by
          simp [loadTaskStep, hst, htr]
        rw [hq, hstep]
        simpa using ih w
      | some e0 =>
        by_cases he : e = e0
        · subst he
          have hq : qualTask e t = true := by simp [qualTask, hst, htr]
          have hstep : loadTaskStep w t = bumpLoad e 1 0 w := by
            simp [loadTaskStep, hst, htr]
          rw [hq, hstep]
          obtain ⟨ih1, ih2, ih3⟩ := ih (bumpLoad e 1 0 w)
          rw [bumpLoad_lookup_self] at ih1 ih2 ih3
          refine ⟨?_, ?_, ?_⟩
          · rw [ih1]
            simp only [Option.getD_some, List.length_cons, if_true]
            omega
          · rw [ih2]
            simp
          · rw [ih3]
            simp
        · have hq : qualTask e t = false := by
            simp only [qualTask, htr]
            simp
            exact fun _ h => he h.symm
          have hstep : loadTaskStep w t = bumpLoad e0 1 0 w := by
            simp [loadTaskStep, hst, htr]
          rw [hq, hstep]
          obtain ⟨ih1, ih2, ih3⟩ := ih (bumpLoad e0 1 0 w)
          rw [bumpLoad_lookup_ne _ _ _ _ _ he]
            at ih1 ih2 ih3
          exact ⟨by simpa using ih1, by simpa using ih2, by simpa using ih3⟩

theorem apptFold_lookup (appointments : List Appointment)
    (w : List (String × Nat × Int)) (e : String) :
    (((appointments.foldl loadApptStep w).lookup e).getD (0, 0)).1 =
        ((w.lookup e).getD (0, 0)).1 ∧
      (((appointments.foldl loadApptStep w).lookup e).getD (0, 0)).2 =
        ((w.lookup e).getD (0, 0)).2 +
          ((appointments.filter (qualAppt e)).map
            (fun a => a.duration_minutes)).sum ∧
      ((appointments.foldl loadApptStep w).lookup e).isSome =
        ((w.lookup e).isSome ||
          !(appointments.filter (qualAppt e)).isEmpty) := by
  induction appointments generalizing w with
  | nil => simp
  | cons a as ih =>
    simp only [List.foldl_cons, List.filter_cons]
    by_cases hst : a.status = "scheduled"
    · cases htr : truthyStr a.assigned_to with
      | none =>
        have hq : qualAppt e a = false := by simp [qualAppt, htr]
        have hstep : loadApptStep w a = w := by
          simp [loadApptStep, hst, htr]
        rw [hq, hstep]
        simpa using ih w
      | some e0 =>
        by_cases he : e = e0
        · subst he
          have hq : qualAppt e a = true := by simp [qualAppt, hst, htr]
          have hstep : loadApptStep w a = bumpLoad e 0 a.duration_minutes w := by
            simp [loadApptStep, hst, htr]
          rw [hq, hstep]
          obtain ⟨ih1, ih2, ih3⟩ := ih (bumpLoad e 0 a.duration_minutes w)
          rw [bumpLoad_lookup_self] at ih1 ih2 ih3
          refine ⟨?_, ?_, ?_⟩
          · rw [ih1]
            simp
          · rw [ih2]
            simp only [Option.getD_some, List.map_cons, List.sum_cons,
              if_true]
            omega
          · rw [ih3]
            simp
        · have hq : qualAppt e a = false := by
            simp only [qualAppt, htr]
            simp
            exact fun _ h => he h.symm
          have hstep : loadApptStep w a = bumpLoad e0 0 a.duration_minutes w := by
            simp [loadApptStep, hst, htr]
          rw [hq, hstep]
          obtain ⟨ih1, ih2, ih3⟩ := ih (bumpLoad e0 0 a.duration_minutes w)
          rw [bumpLoad_lookup_ne _ _ _ _ _ he]
            at ih1 ih2 ih3
          exact ⟨by simpa using ih1, by simpa using ih2, by simpa using ih3⟩
    · have hq : qualAppt e a = false := by simp [qualAppt, hst]
      have hstep : loadApptStep w a = w := by simp [loadApptStep, hst]
      rw [hq, hstep]
      simpa using ih w

theorem bumpLoad_keys_nodup (e : String) (dt : Nat) (dm : Int)
    (w : List (String × Nat × Int)) (h : (w.map Prod.fst).Nodup) :
    ((bumpLoad e dt dm w).map Prod.fst).Nodup := by
  rw [bumpLoad_keys]
  by_cases h2 : (w.lookup e).isSome
  · simpa [h2] using h
  · rw [if_neg h2]
    refine List.nodup_append.mpr ⟨h, List.nodup_singleton e, ?_⟩
    intro x hx hmem
    rw [List.mem_singleton] at hmem
    subst hmem
    exact lookup_none_not_mem_keys (Option.not_isSome_iff_eq_none.mp h2) hx

theorem taskFold_keys_nodup (tasks : List Task)
    (w : List (String × Nat × Int)) (h : (w.map Prod.fst).Nodup) :
    (((tasks.foldl loadTaskStep w).map Prod.fst)).Nodup := by
  induction tasks generalizing w with
  | nil => exact h
  | cons t ts ih =>
    refine ih _ ?_
    unfold loadTaskStep
    by_cases hst : t.status ≠ "completed"
    · rw [if_pos hst]
      cases htr : truthyStr t.assigned_to with
      | none => exact h
      | some e0 => exact bumpLoad_keys_nodup e0 1 0 w h
    · rw [if_neg hst]
      exact h

theorem apptFold_keys_nodup (appointments : List Appointment)
    (w : List (String × Nat × Int)) (h : (w.map Prod.fst).Nodup) :
    (((appointments.foldl loadApptStep w).map Prod.fst)).Nodup := by
  induction appointments generalizing w with
  | nil => exact h
  | cons a as ih =>
    refine ih _ ?_
    unfold loadApptStep
    by_cases hst : a.status = "scheduled"
    · rw [if_pos hst]
      cases htr : truthyStr a.assigned_to with
      | none => exact h
      | some e0 => exact bumpLoad_keys_nodup e0 0 a.duration_minutes w h
    · rw [if_neg hst]
      exact h

/-- The status if-chain of `calculate_engineer_load`, characterised. -/
theorem load_status_cases (q : ℚ) :
    ((if q ≥ 0.8 then "overloaded" else if q ≤ 0.35 then "underutilised"
        else "balanced") = "overloaded" ↔ 0.8 ≤ q) ∧
      ((if q ≥ 0.8 then "overloaded" else if q ≤ 0.35 then "underutilised"
        else "balanced") = "underutilised" ↔ q ≤ 0.35) ∧
      ((if q ≥ 0.8 then "overloaded" else if q ≤ 0.35 then "underutilised"
        else "balanced") = "balanced" ↔ 0.35 < q ∧ q < 0.8) := by
  by_cases h1 : q ≥ 0.8
  · rw [if_pos h1]
    exact ⟨iff_of_true rfl h1,
      iff_of_false (by decide) (fun h => by linarith),
      iff_of_false (by decide) (fun h => by linarith [h.2])⟩
  · rw [if_neg h1]
    by_cases h2 : q ≤ 0.35
    · rw [if_pos h2]
      exact ⟨iff_of_false (by decide) h1, iff_of_true rfl h2,
        iff_of_false (by decide) (fun h => absurd h2 (not_le.mpr h.1))⟩
    · rw [if_neg h2]
      exact ⟨iff_of_false (by decide) h1, iff_of_false (by decide) h2,
        iff_of_true rfl ⟨lt_of_not_ge h2, lt_of_not_ge h1⟩⟩

/-- Claim C9: the engineer-load scorer groups by truthy `assigned_to` over
non-completed tasks and scheduled appointments; for each emitted entry,
`open_tasks` counts the qualifying tasks, `scheduled_minutes` sums the
qualifying appointment durations, `utilisation = min 1 (minutes/480)`, the
status thresholds on the composite score are exactly 0.8 and 0.35, and an
engineer with no qualifying task and no qualifying appointment is absent. -/
theorem engineer_load_correct (tasks : List Task)
    (appointments : List Appointment) :
    (∀ f ∈ calculate_engineer_load tasks appointments,
      f.open_tasks = (tasks.filter (qualTask f.engineer)).length ∧
      f.scheduled_minutes =
        ((appointments.filter (qualAppt f.engineer)).map
          (fun a => a.duration_minutes)).sum ∧
      f.utilisation = min 1 ((f.scheduled_minutes : ℚ) / 480) ∧
      (f.status = "overloaded" ↔
        0.8 ≤ min 1 ((f.open_tasks : ℚ) * 0.05 + f.utilisation)) ∧
      (f.status = "underutilised" ↔
        min 1 ((f.open_tasks : ℚ) * 0.05 + f.utilisation) ≤ 0.35) ∧
      (f.status = "balanced" ↔
        0.35 < min 1 ((f.open_tasks : ℚ) * 0.05 + f.utilisation) ∧
          min 1 ((f.open_tasks : ℚ) * 0.05 + f.utilisation) < 0.8)) ∧
    ∀ e, tasks.filter (qualTask e) = [] →
      appointments.filter (qualAppt e) = [] →
      ∀ f ∈ calculate_engineer_load tasks appointments, f.engineer ≠ e := by
  constructor
  · intro f hf
    unfold calculate_engineer_load at hf
    obtain ⟨⟨e0, ot, sm⟩, hmem, rfl⟩ := List.mem_map.mp hf
    have hnodup : (((appointments.foldl loadApptStep
        (tasks.foldl loadTaskStep [])).map Prod.fst)).Nodup :=
      apptFold_keys_nodup _ _ (taskFold_keys_nodup _ [] (by simp))
    have hlk := lookup_of_mem_nodup hnodup hmem
    obtain ⟨ht1, ht2, _⟩ := taskFold_lookup tasks [] e0
    obtain ⟨ha1, ha2, _⟩ :=
      apptFold_lookup appointments (tasks.foldl loadTaskStep []) e0
    rw [hlk] at ha1 ha2
    rw [ht1] at ha1
    rw [ht2] at ha2
    simp only [Option.getD_some, List.lookup, Option.getD_none,
      Nat.zero_add, Int.zero_add, zero_add] at ha1 ha2
    dsimp only
    refine ⟨ha1, ha2, by norm_num, ?_, ?_, ?_⟩
    · exact (load_status_cases _).1
    · exact (load_status_cases _).2.1
    · exact (load_status_cases _).2.2
  · intro e hta hap f hf
    unfold calculate_engineer_load at hf
    obtain ⟨⟨e0, ot, sm⟩, hmem, rfl⟩ := List.mem_map.mp hf
    intro hcontra
    dsimp only at hcontra
    subst hcontra
    have hsome := lookup_isSome_of_mem hmem
    have ht := (taskFold_lookup tasks [] e0).2.2
    have ha := (apptFold_lookup appointments
      (tasks.foldl loadTaskStep []) e0).2.2
    rw [hta] at ht
    have ht2 : (List.lookup e0 (List.foldl loadTaskStep [] tasks)).isSome
        = false := by
      rw [ht]
      rfl
    rw [hap, ht2] at ha
    have ha2 : (List.lookup e0 (List.foldl loadApptStep
        (List.foldl loadTaskStep [] tasks) appointments)).isSome = false := by
      rw [ha]
      rfl
    rw [ha2] at hsome
    cases hsome

end CRM
